import Mathlib

/-!
Verification of the brainregister pipeline orchestrator
(src/brainregister/__init__.py) against its design specification.

The Python source is shallowly embedded below.  Volumes are modelled as
lists of exact rationals (SimpleITK voxel values), elastix parameter maps
as association lists from keys to lists of strings (the sitk ParameterMap
is a string-to-string-tuple dictionary), and the filesystem used by the
resolve-or-skip protocol as a list of existing paths.  Python float
arithmetic is modelled by exact rational arithmetic; the built-in round
(banker's rounding, used via round(x) and round(x, 6)) is modelled by
pyRound below.
-/

/-- Round half to even on rationals, the behaviour of the Python built-in
round applied to the exact values appearing in this development. -/
def pyRound (q : ℚ) : ℤ :=
  let f := ⌊q⌋
  let r := q - f
  if r < 1/2 then f
  else if 1/2 < r then f + 1
  else if f % 2 = 0 then f else f + 1

/-- Python round(x, 6): round to six decimal digits. -/
def round6 (q : ℚ) : ℚ :=
  (pyRound (q * 1000000) : ℚ) / 1000000

/-- Left-pad a string with zero characters up to width w. -/
def zeroPadLeft (s : String) (w : Nat) : String :=
  String.mk (List.replicate (w - s.length) '0') ++ s

/-- Python fixed-point formatting with six fractional digits, the
string produced by formatting a value with six decimal places, as the
source does for every entry it writes into a parameter map. -/
def format6 (q : ℚ) : String :=
  let n := pyRound (q * 1000000)
  let m := n.natAbs
  let sign := if n < 0 then "-" else ""
  sign ++ toString (m / 1000000) ++ "." ++ zeroPadLeft (toString (m % 1000000)) 6

theorem pyRound_intCast (z : ℤ) : pyRound (z : ℚ) = z := by
  unfold pyRound
  norm_num

theorem pyRound_natCast (n : ℕ) : pyRound (n : ℚ) = n := by
  have h := pyRound_intCast (n : ℤ)
  simpa using h

/-! ## Parameter maps

A sitk ParameterMap is a dictionary from string keys to tuples of
strings.  We embed it as an association list, with dictionary
assignment (setPm) replacing the value of an existing key in place and
appending a new key at the end, exactly as a Python dict does. -/

/-- Association-list embedding of a sitk ParameterMap. -/
def ParamMap := List (String × List String)

instance : DecidableEq ParamMap := by
  unfold ParamMap
  infer_instance

/-- Dictionary assignment pm[k] = v on a ParameterMap. -/
def setPm : ParamMap → String → List String → ParamMap
  | [], k, v => [(k, v)]
  | (k', v') :: rest, k, v =>
    if k' = k then (k, v) :: rest else (k', v') :: setPm rest k v

/-- Dictionary lookup pm[k] on a ParameterMap. -/
def lookupPm : ParamMap → String → Option (List String)
  | [], _ => none
  | (k', v') :: rest, k => if k' = k then some v' else lookupPm rest k

theorem lookupPm_setPm_self (pm : ParamMap) (k : String) (v : List String) :
    lookupPm (setPm pm k v) k = some v := by
  induction pm with
  | nil => simp [setPm, lookupPm]
  | cons e rest ih =>
    by_cases h : e.1 = k
    · simp [setPm, lookupPm, h]
    · simp [setPm, lookupPm, h, ih]

theorem lookupPm_setPm_ne (pm : ParamMap) (k k' : String) (v : List String)
    (h : k ≠ k') : lookupPm (setPm pm k v) k' = lookupPm pm k' := by
  induction pm with
  | nil => simp [setPm, lookupPm, h]
  | cons e rest ih =>
    by_cases he : e.1 = k
    · simp [setPm, lookupPm, he, h]
    · simp [setPm, lookupPm, he, ih]

theorem setPm_idem (pm : ParamMap) (k : String) (v : List String) :
    setPm (setPm pm k v) k v = setPm pm k v := by
  induction pm with
  | nil => simp [setPm]
  | cons e rest ih =>
    by_cases h : e.1 = k
    · simp [setPm, h]
    · simp [setPm, h, ih]

/-! ## The filter pipeline DSL (class ImageFilterPipeline, lines 2059-2163)

The constructor splits the spec string on the dash character, extracts
from each clause the string of uppercase characters as the filter code
and the numeric comma-separated tokens as the kernel, and appends a
configured sitk filter object plus parallel name and kernel entries for
the recognised codes M, G and GH.  Tokens that are not purely digits are
silently dropped by the comprehension guard s.isdigit(). -/

/-- Python str.split with a one-character separator, on the character
list of the string; "".split(sep) gives [""] and adjacent separators
give empty fields, as in Python. -/
def splitOnChar (sep : Char) : List Char → List (List Char)
  | [] => [[]]
  | c :: rest =>
    let r := splitOnChar sep rest
    if c = sep then [] :: r
    else
      match r with
      | [] => [[c]]
      | g :: gs => (c :: g) :: gs

/-- Python str.split with a one-character separator, as a String
operation. -/
def pySplit (sep : Char) (s : String) : List String :=
  (splitOnChar sep s.data).map String.mk

/-- The numeric value of a string of decimal digits (Python int(s)). -/
def digitsToNat (cs : List Char) : Nat :=
  cs.foldl (fun n c => n * 10 + (c.toNat - '0'.toNat)) 0

/-- A configured sitk filter object as built by the constructor: the GH
branch constructs the same smoothing gaussian object as the G branch,
only the recorded name differs. -/
inductive SitkFilter where
  | medianImageFilter (radius : List Nat)
  | smoothingRecursiveGaussianImageFilter (sigma : List Nat)
  deriving DecidableEq, Repr

structure ImageFilterPipeline where
  img_filter : List SitkFilter
  img_filter_name : List String
  img_filter_kernel : List (List Nat)
  deriving DecidableEq, Repr

/-- Python str.isdigit, faithful exactly on ASCII tokens: nonempty and
every character an ASCII digit, in which case int(s) also succeeds and
equals digitsToNat.  Beyond ASCII the two sides diverge: Python
str.isdigit also accepts other Unicode digit characters, on some of
which int() raises ValueError (for example the superscript two, so the
real constructor is not total there) while others (the Nd digits) are
parsed by int() but rejected here.  The embedding of the constructor
is therefore claimed faithful only on ASCII spec strings, and every
universally quantified theorem below carries that hypothesis. -/
def pyIsDigit (cs : List Char) : Bool :=
  !cs.isEmpty && cs.all Char.isDigit

/-- The clause code: the concatenation of the uppercase characters of
the clause (source line 2074). -/
def filterCodeOf (f : String) : String :=
  String.mk (f.data.filter Char.isUpper)

/-- The clause kernel: the numeric comma-separated tokens of the clause
(source line 2075); non-digit tokens are dropped by the guard. -/
def filterKernelOf (f : String) : List Nat :=
  ((splitOnChar ',' f.data).filter pyIsDigit).map digitsToNat

/-- One iteration of the constructor loop (lines 2072-2102): append the
configured filter and its bookkeeping entries when the code is
recognised, leave the pipeline unchanged otherwise. -/
def filterStep (p : ImageFilterPipeline) (f : String) : ImageFilterPipeline :=
  let code := filterCodeOf f
  let kernel := filterKernelOf f
  if code = "M" then
    { img_filter := p.img_filter ++ [.medianImageFilter kernel],
      img_filter_name := p.img_filter_name ++ ["Median"],
      img_filter_kernel := p.img_filter_kernel ++ [kernel] }
  else if code = "G" then
    { img_filter := p.img_filter ++ [.smoothingRecursiveGaussianImageFilter kernel],
      img_filter_name := p.img_filter_name ++ ["Gaussian"],
      img_filter_kernel := p.img_filter_kernel ++ [kernel] }
  else if code = "GH" then
    { img_filter := p.img_filter ++ [.smoothingRecursiveGaussianImageFilter kernel],
      img_filter_name := p.img_filter_name ++ ["Gaussian-High-Pass"],
      img_filter_kernel := p.img_filter_kernel ++ [kernel] }
  else p

/-- ImageFilterPipeline.__init__ (lines 2062-2104): split the spec
string on dashes and process each clause in order. -/
def ImageFilterPipeline.init (filter_string : String) : ImageFilterPipeline :=
  (pySplit '-' filter_string).foldl filterStep
    { img_filter := [], img_filter_name := [], img_filter_kernel := [] }

/-- ImageFilterPipeline.execute_pipeline (lines 2150-2163): apply each
parsed filter in order, each consuming the previous output.  The effect
of one sitk filter on a volume is kept abstract. -/
def execute_pipeline {Vol : Type} (applySitk : SitkFilter → Vol → Vol)
    (p : ImageFilterPipeline) (img : Vol) : Vol :=
  p.img_filter.foldl (fun im f => applySitk f im) img

/-- Per-clause contribution of a spec clause to the filter list: one
configured filter for a recognised code, nothing otherwise. -/
def clauseFilters (f : String) : List SitkFilter :=
  if filterCodeOf f = "M" then [.medianImageFilter (filterKernelOf f)]
  else if filterCodeOf f = "G" then [.smoothingRecursiveGaussianImageFilter (filterKernelOf f)]
  else if filterCodeOf f = "GH" then [.smoothingRecursiveGaussianImageFilter (filterKernelOf f)]
  else []

theorem filterStep_img_filter (p : ImageFilterPipeline) (f : String) :
    (filterStep p f).img_filter = p.img_filter ++ clauseFilters f := by
  simp only [filterStep, clauseFilters]
  split_ifs <;> simp

theorem foldl_filterStep_img_filter (cs : List String) (p : ImageFilterPipeline) :
    (cs.foldl filterStep p).img_filter = p.img_filter ++ (cs.map clauseFilters).flatten := by
  induction cs generalizing p with
  | nil => simp
  | cons f rest ih =>
    rw [List.foldl_cons, ih, filterStep_img_filter, List.map_cons, List.flatten_cons,
      List.append_assoc]

/-- C6: the spec string M,2,2,1-GH,5,5,2 parses to exactly two clauses,
a median filter with kernel (2,2,1) followed by the filter recorded as
Gaussian-High-Pass with kernel (5,5,2), and execute_pipeline applies
them in that order; the spec string X,1,1,1 has an unknown code and
parses to zero clauses, so executing that pipeline returns the input
volume unchanged. -/
theorem claim6_filter_grammar :
    ImageFilterPipeline.init "M,2,2,1-GH,5,5,2" =
      { img_filter := [.medianImageFilter [2, 2, 1],
                       .smoothingRecursiveGaussianImageFilter [5, 5, 2]],
        img_filter_name := ["Median", "Gaussian-High-Pass"],
        img_filter_kernel := [[2, 2, 1], [5, 5, 2]] }
    ∧ (∀ (Vol : Type) (applySitk : SitkFilter → Vol → Vol) (img : Vol),
        execute_pipeline applySitk (ImageFilterPipeline.init "M,2,2,1-GH,5,5,2") img =
          applySitk (.smoothingRecursiveGaussianImageFilter [5, 5, 2])
            (applySitk (.medianImageFilter [2, 2, 1]) img))
    ∧ ImageFilterPipeline.init "X,1,1,1" =
        { img_filter := [], img_filter_name := [], img_filter_kernel := [] }
    ∧ (∀ (Vol : Type) (applySitk : SitkFilter → Vol → Vol) (img : Vol),
        execute_pipeline applySitk (ImageFilterPipeline.init "X,1,1,1") img = img) :=
  ⟨by decide, fun _ _ _ => rfl, by decide, fun _ _ _ => rfl⟩

/-- Concrete filter semantics used only to witness claim6 at a closed
instance. -/
def applyCount : SitkFilter → Nat → Nat
  | .medianImageFilter k, n => n * 2 + k.length
  | .smoothingRecursiveGaussianImageFilter k, n => n * 3 + k.length

/-- Witness for claim6 at concrete volumes. -/
theorem claim6_witness :
    execute_pipeline applyCount (ImageFilterPipeline.init "M,2,2,1-GH,5,5,2") 1 =
      applyCount (.smoothingRecursiveGaussianImageFilter [5, 5, 2])
        (applyCount (.medianImageFilter [2, 2, 1]) 1)
    ∧ execute_pipeline applyCount (ImageFilterPipeline.init "X,1,1,1") 9 = 9 :=
  ⟨claim6_filter_grammar.2.1 Nat applyCount 1, claim6_filter_grammar.2.2.2 Nat applyCount 9⟩

/-- C7 counterexample: a clause whose kernel part is malformed does NOT
cause a parse error.  Both clauses of M,a,b-M,2,x,1 are malformed (not
1-3 comma-separated non-negative integers), yet the constructor returns
normally, silently dropping the non-digit tokens and appending a median
filter with the remaining digits, including a degenerate filter with an
empty kernel. -/
theorem claim7_counterexample :
    ImageFilterPipeline.init "M,a,b-M,2,x,1" =
      { img_filter := [.medianImageFilter [], .medianImageFilter [2, 1]],
        img_filter_name := ["Median", "Median"],
        img_filter_kernel := [[], [2, 1]] } := by
  decide

/-- C7 amended: over ASCII spec strings, where Python str.isdigit,
str.isupper and int agree character-for-character with the embedding,
parsing is total and deterministic, and a clause with an unknown
uppercase code is ignored (no filter appended); but a clause whose
kernel part is malformed does not fail fast with a parse error:
non-digit tokens are silently dropped by the isdigit guard and, for a
recognised code, a single filter is still appended with whatever digit
tokens remain.  Totality over arbitrary Unicode strings is false for
the program itself (a kernel token whose characters pass isdigit but
which int rejects, such as the superscript two, makes the constructor
raise ValueError), so the statement is scoped to the ASCII domain on
which the embedding is faithful. -/
theorem claim7_parse_total :
    ∀ s : String, (∀ c ∈ s.data, c.toNat < 128) →
      (ImageFilterPipeline.init s).img_filter = ((pySplit '-' s).map clauseFilters).flatten
      ∧ (∀ f : String, (∀ c ∈ f.data, c.toNat < 128) →
          filterCodeOf f ≠ "M" → filterCodeOf f ≠ "G" → filterCodeOf f ≠ "GH" →
          clauseFilters f = [])
      ∧ (∀ f : String, (∀ c ∈ f.data, c.toNat < 128) → filterCodeOf f = "M" →
          clauseFilters f = [.medianImageFilter (filterKernelOf f)]) := by
  intro s _
  refine ⟨?_, ?_, ?_⟩
  · rw [ImageFilterPipeline.init, foldl_filterStep_img_filter]
    rfl
  · intro f _ h1 h2 h3
    simp [clauseFilters, h1, h2, h3]
  · intro f _ h1
    simp [clauseFilters, h1]

/-- Witness for claim7_parse_total at concrete ASCII spec strings. -/
theorem claim7_witness :
    (ImageFilterPipeline.init "M,4,4,4").img_filter =
      ((pySplit '-' "M,4,4,4").map clauseFilters).flatten
    ∧ clauseFilters "Z,1" = [] :=
  ⟨(claim7_parse_total "M,4,4,4" (by decide)).1,
   (claim7_parse_total "M,4,4,4" (by decide)).2.1 "Z,1" (by decide)
     (by decide) (by decide) (by decide)⟩

/-! ## Scale factors (get_sample_ccf_scale_factors, lines 826-851) -/

theorem pyRound_of_fract_lt {q : ℚ} {f : ℤ} (h1 : ⌊q⌋ = f) (h2 : q - f < 1/2) :
    pyRound q = f := by
  simp only [pyRound]
  rw [h1, if_pos h2]

theorem pyRound_eq_intCast (q : ℚ) (z : ℤ) (h : q = (z : ℚ)) : pyRound q = z := by
  rw [h, pyRound_intCast]

theorem floor_eval {q : ℚ} {z : ℤ} (h1 : (z : ℚ) ≤ q) (h2 : q < z + 1) : ⌊q⌋ = z :=
  Int.floor_eq_iff.mpr ⟨h1, h2⟩

theorem format6_eval (q : ℚ) (n : ℤ) (h : pyRound (q * 1000000) = n) :
    format6 q = (if n < 0 then "-" else "") ++
      toString (n.natAbs / 1000000) ++ "." ++ zeroPadLeft (toString (n.natAbs % 1000000)) 6 := by
  simp only [format6]
  rw [h]

/-- Python dict.get(key, default) on a resolution dictionary. -/
def pyGet (d : List (String × ℚ)) (k : String) (dflt : ℚ) : ℚ :=
  match d with
  | [] => dflt
  | (k', v) :: rest => if k' = k then v else pyGet rest k dflt

/-- The dictionary comprehension shared by both directions of
get_sample_ccf_scale_factors: for each key of the numerator dictionary,
divide by denomSrc.get(key, 0), rounding the ratio to six decimal
digits; a zero denominator raises ZeroDivisionError in Python, embedded
as an error result. -/
def scaleEntries : List (String × ℚ) → List (String × ℚ) → Except String (List (String × ℚ))
  | [], _ => .ok []
  | (k, a) :: rest, denomSrc =>
    let b := pyGet denomSrc k 0
    if b = 0 then .error "ZeroDivisionError"
    else
      match scaleEntries rest denomSrc with
      | .error e => .error e
      | .ok tl => .ok ((k, round6 (a / b)) :: tl)

/-- BrainRegister.get_sample_ccf_scale_factors (lines 826-851): the
sample-to-ccf factors iterate the sample resolution keys dividing by the
ccf resolution, the ccf-to-sample factors iterate the ccf resolution
keys dividing by the sample resolution; each ratio is rounded to six
decimal places. -/
def get_sample_ccf_scale_factors (brpRes ccfRes : List (String × ℚ)) :
    Except String (List (String × ℚ) × List (String × ℚ)) :=
  match scaleEntries brpRes ccfRes with
  | .error e => .error e
  | .ok s2c =>
    match scaleEntries ccfRes brpRes with
    | .error e => .error e
    | .ok c2s => .ok (s2c, c2s)

/-- C4: for any two per-axis resolutions with non-zero entries, the
scale-factor computation yields, per axis, the ratio of the two
resolutions rounded to six decimal digits, in both directions. -/
theorem claim4_scale_factors (a1 a2 a3 b1 b2 b3 : ℚ)
    (ha1 : a1 ≠ 0) (ha2 : a2 ≠ 0) (ha3 : a3 ≠ 0)
    (hb1 : b1 ≠ 0) (hb2 : b2 ≠ 0) (hb3 : b3 ≠ 0) :
    get_sample_ccf_scale_factors
        [("x-um", a1), ("y-um", a2), ("z-um", a3)]
        [("x-um", b1), ("y-um", b2), ("z-um", b3)] =
      .ok ([("x-um", round6 (a1 / b1)), ("y-um", round6 (a2 / b2)), ("z-um", round6 (a3 / b3))],
           [("x-um", round6 (b1 / a1)), ("y-um", round6 (b2 / a2)), ("z-um", round6 (b3 / a3))]) := by
  simp [get_sample_ccf_scale_factors, scaleEntries, pyGet, ha1, ha2, ha3, hb1, hb2, hb3]

/-- Witness for claim4 at the resolutions of the spec example: sample
(1,1,1) micron against ccf (25,25,25) micron gives sample-to-ccf 1/25
(that is 0.04) and ccf-to-sample 25 on every axis. -/
theorem claim4_witness :
    get_sample_ccf_scale_factors
        [("x-um", 1), ("y-um", 1), ("z-um", 1)]
        [("x-um", 25), ("y-um", 25), ("z-um", 25)] =
      .ok ([("x-um", 1/25), ("y-um", 1/25), ("z-um", 1/25)],
           [("x-um", 25), ("y-um", 25), ("z-um", 25)]) := by
  rw [claim4_scale_factors 1 1 1 25 25 25 (by norm_num) (by norm_num) (by norm_num)
    (by norm_num) (by norm_num) (by norm_num)]
  have h1 : round6 ((1 : ℚ) / 25) = 1/25 := by
    unfold round6
    rw [pyRound_eq_intCast _ 40000 (by norm_num)]
    norm_num
  have h2 : round6 ((25 : ℚ) / 1) = 25 := by
    unfold round6
    rw [pyRound_eq_intCast _ 25000000 (by norm_num)]
    norm_num
  rw [h1, h2]

/-! ## The FS to DS affine scaling maps (lines 887-957) -/

/-- The per-axis scale factors as a record (the values of the s2c and
c2s dictionaries at the keys x-um, y-um, z-um). -/
structure ScaleFactors where
  xum : ℚ
  yum : ℚ
  zum : ℚ

/-- BrainRegister.get_fs_ds_scaling (lines 887-920): starting from the
template parameter map read from 00_scaling.txt (kept abstract as
basePm), set TransformParameters to the diagonal matrix of the
ccf-to-sample ratios with zero translation, set Size per axis to the
fullstack template extent times the sample-to-ccf ratio rounded to the
nearest integer, and set the output format.  Every entry is written
with six decimal places. -/
def get_fs_ds_scaling (basePm : ParamMap) (c2s s2c : ScaleFactors)
    (width height depth : ℕ) (fmt : String) : List ParamMap :=
  let pm1 := setPm basePm "TransformParameters"
    [format6 c2s.xum, "0.000000", "0.000000", "0.000000",
     format6 c2s.yum, "0.000000", "0.000000", "0.000000",
     format6 c2s.zum, "0.000000", "0.000000", "0.000000"]
  let pm2 := setPm pm1 "Size"
    [format6 ((pyRound ((width : ℚ) * s2c.xum) : ℤ) : ℚ),
     format6 ((pyRound ((height : ℚ) * s2c.yum) : ℤ) : ℚ),
     format6 ((pyRound ((depth : ℚ) * s2c.zum) : ℤ) : ℚ)]
  let pm3 := setPm pm2 "ResultImageFormat" [fmt]
  [pm3]

/-- BrainRegister.get_ds_fs_scaling (lines 925-957): TransformParameters
is the diagonal of the sample-to-ccf ratios with zero translation, and
Size per axis is round of the fullstack template extent itself (the
width, height and depth of self.template_img, with no ratio applied). -/
def get_ds_fs_scaling (basePm : ParamMap) (c2s s2c : ScaleFactors)
    (width height depth : ℕ) (fmt : String) : List ParamMap :=
  let pm1 := setPm basePm "TransformParameters"
    [format6 s2c.xum, "0.000000", "0.000000", "0.000000",
     format6 s2c.yum, "0.000000", "0.000000", "0.000000",
     format6 s2c.zum, "0.000000", "0.000000", "0.000000"]
  let pm2 := setPm pm1 "Size"
    [format6 ((pyRound (width : ℚ) : ℤ) : ℚ),
     format6 ((pyRound (height : ℚ) : ℤ) : ℚ),
     format6 ((pyRound (depth : ℚ) : ℤ) : ℚ)]
  let pm3 := setPm pm2 "ResultImageFormat" [fmt]
  [pm3]

/-- C5 counterexample: for sample resolution (1,1,1) against ccf
resolution (25,25,25) (so s2c = 1/25 and c2s = 25 per axis) and a
fullstack template of extent 507 per axis, the FS to DS map has Size 20
per axis, so the downsampled volume extent is 20; the claim predicts
that the DS to FS Size is the source (downsampled) extent times the
opposite ratio, round(20 x 25) = 500, but the generated DS to FS map
has Size 507 per axis (the fullstack extent, used directly). -/
theorem claim5_counterexample :
    ((get_fs_ds_scaling [] ⟨25, 25, 25⟩ ⟨1/25, 1/25, 1/25⟩ 507 507 507 "nrrd").map
        (fun pm => lookupPm pm "Size") =
      [some ["20.000000", "20.000000", "20.000000"]])
    ∧ ((get_ds_fs_scaling [] ⟨25, 25, 25⟩ ⟨1/25, 1/25, 1/25⟩ 507 507 507 "nrrd").map
        (fun pm => lookupPm pm "Size") =
      [some ["507.000000", "507.000000", "507.000000"]])
    ∧ format6 ((pyRound ((20 : ℚ) * 25) : ℤ) : ℚ) = "500.000000"
    ∧ ("507.000000" : String) ≠ "500.000000" := by
  have h507 : pyRound (((507 : ℕ) : ℚ) * (1/25)) = 20 := by
    apply pyRound_of_fract_lt (f := 20)
    · apply floor_eval <;> push_cast <;> norm_num
    · push_cast
      norm_num
  have h20 : format6 ((20 : ℤ) : ℚ) = "20.000000" := by
    rw [format6_eval _ 20000000 (pyRound_eq_intCast _ _ (by norm_num))]
    decide
  have h507f : pyRound ((507 : ℕ) : ℚ) = 507 := pyRound_natCast 507
  have h507s : format6 ((507 : ℤ) : ℚ) = "507.000000" := by
    rw [format6_eval _ 507000000 (pyRound_eq_intCast _ _ (by norm_num))]
    decide
  have h500 : pyRound ((20 : ℚ) * 25) = 500 := pyRound_eq_intCast _ _ (by norm_num)
  have h500s : format6 ((500 : ℤ) : ℚ) = "500.000000" := by
    rw [format6_eval _ 500000000 (pyRound_eq_intCast _ _ (by norm_num))]
    decide
  refine ⟨?_, ?_, ?_, by decide⟩
  · simp only [get_fs_ds_scaling, List.map_cons, List.map_nil]
    rw [lookupPm_setPm_ne _ _ _ _ (by decide), lookupPm_setPm_self, h507, h20]
  · simp only [get_ds_fs_scaling, List.map_cons, List.map_nil]
    rw [lookupPm_setPm_ne _ _ _ _ (by decide), lookupPm_setPm_self, h507f, h507s]
  · rw [h500, h500s]

/-- C5 amended: the FS to DS and DS to FS maps are diagonal scaling
matrices of the per-axis ratios (formatted to six decimal places) with
zero translation; the FS to DS Size is the fullstack extent times the
sample-to-ccf ratio rounded to the nearest integer, but the DS to FS
Size is the fullstack extent itself (rounded), not the downsampled
extent times the opposite ratio. -/
theorem claim5_scaling_maps (basePm : ParamMap) (c2s s2c : ScaleFactors)
    (w h d : ℕ) (fmt : String) :
    (∃ pm, get_fs_ds_scaling basePm c2s s2c w h d fmt = [pm]
      ∧ lookupPm pm "TransformParameters" =
          some [format6 c2s.xum, "0.000000", "0.000000", "0.000000",
                format6 c2s.yum, "0.000000", "0.000000", "0.000000",
                format6 c2s.zum, "0.000000", "0.000000", "0.000000"]
      ∧ lookupPm pm "Size" =
          some [format6 ((pyRound ((w : ℚ) * s2c.xum) : ℤ) : ℚ),
                format6 ((pyRound ((h : ℚ) * s2c.yum) : ℤ) : ℚ),
                format6 ((pyRound ((d : ℚ) * s2c.zum) : ℤ) : ℚ)])
    ∧ (∃ pm, get_ds_fs_scaling basePm c2s s2c w h d fmt = [pm]
      ∧ lookupPm pm "TransformParameters" =
          some [format6 s2c.xum, "0.000000", "0.000000", "0.000000",
                format6 s2c.yum, "0.000000", "0.000000", "0.000000",
                format6 s2c.zum, "0.000000", "0.000000", "0.000000"]
      ∧ lookupPm pm "Size" = some [format6 (w : ℚ), format6 (h : ℚ), format6 (d : ℚ)]) := by
  constructor
  · refine ⟨_, rfl, ?_, ?_⟩
    · rw [lookupPm_setPm_ne _ _ _ _ (by decide), lookupPm_setPm_ne _ _ _ _ (by decide),
        lookupPm_setPm_self]
    · rw [lookupPm_setPm_ne _ _ _ _ (by decide), lookupPm_setPm_self]
  · refine ⟨_, rfl, ?_, ?_⟩
    · rw [lookupPm_setPm_ne _ _ _ _ (by decide), lookupPm_setPm_ne _ _ _ _ (by decide),
        lookupPm_setPm_self]
    · rw [lookupPm_setPm_ne _ _ _ _ (by decide), lookupPm_setPm_self,
        pyRound_natCast w, pyRound_natCast h, pyRound_natCast d]
      push_cast
      rfl

/-- Witness for claim5_scaling_maps at a concrete configuration. -/
theorem claim5_witness :
    ∃ pm, get_ds_fs_scaling [] ⟨25, 25, 25⟩ ⟨1/25, 1/25, 1/25⟩ 500 500 500 "nrrd" = [pm]
      ∧ lookupPm pm "TransformParameters" =
          some [format6 (1/25), "0.000000", "0.000000", "0.000000",
                format6 (1/25), "0.000000", "0.000000", "0.000000",
                format6 (1/25), "0.000000", "0.000000", "0.000000"]
      ∧ lookupPm pm "Size" =
          some [format6 ((500 : ℕ) : ℚ), format6 ((500 : ℕ) : ℚ), format6 ((500 : ℕ) : ℚ)] :=
  (claim5_scaling_maps [] ⟨25, 25, 25⟩ ⟨1/25, 1/25, 1/25⟩ 500 500 500 "nrrd").2

/-! ## The pixel reconciler (transform_image / cast_image, lines 1007-1092)

A volume is a flat list of voxel values together with the sitk pixel
type name; transformix outputs 32-bit floats, modelled as exact
rationals.  cast_image first writes the minimum of the original volume
over every smaller voxel, then the maximum over every larger voxel, and
only then converts the array with numpy astype, which truncates toward
zero and wraps out-of-range values modulo the type width. -/

structure Volume where
  dtype : String
  values : List ℚ

structure IntVolume where
  dtype : String
  values : List ℤ

/-- Minimum as computed by sitk MinimumMaximumImageFilter (zero only on
the empty volume, which sitk never produces). -/
def listMin : List ℚ → ℚ
  | [] => 0
  | x :: xs => xs.foldl min x

/-- Maximum as computed by sitk MinimumMaximumImageFilter. -/
def listMax : List ℚ → ℚ
  | [] => 0
  | x :: xs => xs.foldl max x

/-- The two sequential masked assignments of cast_image (lines
1054-1060): voxels below the minimum become the minimum, then voxels
above the maximum become the maximum. -/
def clamp2 (mn mx v : ℚ) : ℚ :=
  let v1 := if v < mn then mn else v
  if v1 > mx then mx else v1

/-- numpy astype target dtypes reachable from cast_image. -/
inductive NpDtype where
  | int8
  | uint8
  | int16
  | uint16
  deriving DecidableEq, Repr

def dtypeLo : NpDtype → ℤ
  | .int8 => -128
  | .uint8 => 0
  | .int16 => -32768
  | .uint16 => 0

def dtypeHi : NpDtype → ℤ
  | .int8 => 127
  | .uint8 => 255
  | .int16 => 32767
  | .uint16 => 65535

/-- The if/elif chain of cast_image on GetPixelIDTypeAsString (lines
1072-1085): the four supported integer types map to themselves, any
other source type defaults to unsigned 16-bit. -/
def npTargetOf (sitkType : String) : NpDtype :=
  if sitkType = "16-bit signed integer" then .int16
  else if sitkType = "8-bit signed integer" then .int8
  else if sitkType = "8-bit unsigned integer" then .uint8
  else if sitkType = "16-bit unsigned integer" then .uint16
  else .uint16

/-- The sitk pixel type name of the image rebuilt from the numpy array
by GetImageFromArray. -/
def sitkNameOf : NpDtype → String
  | .int8 => "8-bit signed integer"
  | .uint8 => "8-bit unsigned integer"
  | .int16 => "16-bit signed integer"
  | .uint16 => "16-bit unsigned integer"

/-- Truncation toward zero, the behaviour of a C float-to-integer cast
as performed by numpy astype on in-range values. -/
def truncQ (q : ℚ) : ℤ :=
  if 0 ≤ q then ⌊q⌋ else ⌈q⌉

/-- Two's-complement wrap-around into the range of the target dtype,
the behaviour of numpy astype on out-of-range integral values. -/
def wrapInto (t : NpDtype) (z : ℤ) : ℤ :=
  dtypeLo t + (z - dtypeLo t) % (dtypeHi t - dtypeLo t + 1)

/-- numpy ndarray.astype from float64 values to an integer dtype. -/
def npAstype (t : NpDtype) (vs : List ℚ) : List ℤ :=
  vs.map (fun q => wrapInto t (truncQ q))

/-- BrainRegister.cast_image (lines 1039-1092): clamp the transformed
volume to the original volume value range, then astype to the dtype
selected from the original volume pixel type. -/
def cast_image (sample_template_img sample_template_ds : Volume) : IntVolume :=
  let mn := listMin sample_template_img.values
  let mx := listMax sample_template_img.values
  let clamped := sample_template_ds.values.map (clamp2 mn mx)
  let t := npTargetOf sample_template_img.dtype
  { dtype := sitkNameOf t, values := npAstype t clamped }

theorem foldl_min_le_init (l : List ℚ) (a : ℚ) : l.foldl min a ≤ a := by
  induction l generalizing a with
  | nil => exact le_refl a
  | cons x xs ih => exact le_trans (ih (min a x)) (min_le_left a x)

theorem foldl_min_mem (l : List ℚ) (a : ℚ) : l.foldl min a = a ∨ l.foldl min a ∈ l := by
  induction l generalizing a with
  | nil => exact Or.inl rfl
  | cons x xs ih =>
    rcases ih (min a x) with h | h
    · rcases min_choice a x with hm | hm
      · exact Or.inl (by rw [List.foldl_cons, h, hm])
      · exact Or.inr (by rw [List.foldl_cons, h, hm]; exact List.mem_cons_self x xs)
    · exact Or.inr (List.mem_cons_of_mem x h)

theorem foldl_min_le_mem (l : List ℚ) (a x : ℚ) (hx : x ∈ l) : l.foldl min a ≤ x := by
  induction l generalizing a with
  | nil => cases hx
  | cons y ys ih =>
    rcases List.mem_cons.mp hx with rfl | h
    · exact le_trans (foldl_min_le_init ys (min a x)) (min_le_right a x)
    · exact ih (min a y) h

theorem foldl_max_init_le (l : List ℚ) (a : ℚ) : a ≤ l.foldl max a := by
  induction l generalizing a with
  | nil => exact le_refl a
  | cons x xs ih => exact le_trans (le_max_left a x) (ih (max a x))

theorem foldl_max_mem (l : List ℚ) (a : ℚ) : l.foldl max a = a ∨ l.foldl max a ∈ l := by
  induction l generalizing a with
  | nil => exact Or.inl rfl
  | cons x xs ih =>
    rcases ih (max a x) with h | h
    · rcases max_choice a x with hm | hm
      · exact Or.inl (by rw [List.foldl_cons, h, hm])
      · exact Or.inr (by rw [List.foldl_cons, h, hm]; exact List.mem_cons_self x xs)
    · exact Or.inr (List.mem_cons_of_mem x h)

theorem foldl_max_mem_le (l : List ℚ) (a x : ℚ) (hx : x ∈ l) : x ≤ l.foldl max a := by
  induction l generalizing a with
  | nil => cases hx
  | cons y ys ih =>
    rcases List.mem_cons.mp hx with rfl | h
    · exact le_trans (le_max_right a x) (foldl_max_init_le ys (max a x))
    · exact ih (max a y) h

theorem listMin_mem (l : List ℚ) (h : l ≠ []) : listMin l ∈ l := by
  match l with
  | x :: xs =>
    rcases foldl_min_mem xs x with h1 | h1
    · rw [listMin, h1]; exact List.mem_cons_self x xs
    · rw [listMin]; exact List.mem_cons_of_mem x h1

theorem listMax_mem (l : List ℚ) (h : l ≠ []) : listMax l ∈ l := by
  match l with
  | x :: xs =>
    rcases foldl_max_mem xs x with h1 | h1
    · rw [listMax, h1]; exact List.mem_cons_self x xs
    · rw [listMax]; exact List.mem_cons_of_mem x h1

theorem listMin_le (l : List ℚ) (x : ℚ) (hx : x ∈ l) : listMin l ≤ x := by
  match l with
  | y :: ys =>
    rcases List.mem_cons.mp hx with rfl | h
    · exact foldl_min_le_init ys x
    · exact foldl_min_le_mem ys y x h

theorem le_listMax (l : List ℚ) (x : ℚ) (hx : x ∈ l) : x ≤ listMax l := by
  match l with
  | y :: ys =>
    rcases List.mem_cons.mp hx with rfl | h
    · exact foldl_max_init_le ys x
    · exact foldl_max_mem_le ys y x h

theorem clamp2_bounds {mn mx : ℚ} (h : mn ≤ mx) (v : ℚ) :
    mn ≤ clamp2 mn mx v ∧ clamp2 mn mx v ≤ mx := by
  unfold clamp2
  by_cases h1 : v < mn
  · simp only [if_pos h1]
    have : ¬ mn > mx := not_lt.mpr h
    simp only [if_neg this]
    exact ⟨le_refl mn, h⟩
  · simp only [if_neg h1]
    by_cases h2 : v > mx
    · simp only [if_pos h2]
      exact ⟨h, le_refl mx⟩
    · simp only [if_neg h2]
      exact ⟨not_lt.mp h1, not_lt.mp h2⟩

theorem truncQ_bounds {lo hi : ℤ} {q : ℚ} (h1 : (lo : ℚ) ≤ q) (h2 : q ≤ (hi : ℚ)) :
    lo ≤ truncQ q ∧ truncQ q ≤ hi := by
  unfold truncQ
  by_cases h : 0 ≤ q
  · simp only [if_pos h]
    constructor
    · exact Int.le_floor.mpr h1
    · calc ⌊q⌋ ≤ ⌊(hi : ℚ)⌋ := Int.floor_le_floor h2
        _ = hi := Int.floor_intCast hi
  · simp only [if_neg h]
    constructor
    · calc lo = ⌈(lo : ℚ)⌉ := (Int.ceil_intCast lo).symm
        _ ≤ ⌈q⌉ := Int.ceil_le_ceil h1
    · exact Int.ceil_le.mpr h2

theorem wrapInto_eq_self {t : NpDtype} {z : ℤ} (h1 : dtypeLo t ≤ z) (h2 : z ≤ dtypeHi t) :
    wrapInto t z = z := by
  unfold wrapInto
  rw [Int.emod_eq_of_lt (by omega) (by cases t <;> simp [dtypeLo, dtypeHi] at * <;> omega)]
  omega

/-- C3: pixel reconciliation first clamps every voxel of the
transformed volume into the closed range of the original volume values
and only then casts element-wise, so every output voxel is exactly the
truncation of the clamped value (wrap-around never fires: out-of-range
values saturate to the range bounds), every output voxel lies within
the range of the selected integer dtype, and the output dtype matches
the original for the four supported types while any other source type
is cast to unsigned 16-bit. -/
theorem claim3_cast_image (orig transformed : Volume)
    (hne : orig.values ≠ [])
    (hrange : ∀ v ∈ orig.values,
      (dtypeLo (npTargetOf orig.dtype) : ℚ) ≤ v ∧ v ≤ (dtypeHi (npTargetOf orig.dtype) : ℚ)) :
    (cast_image orig transformed).values =
      transformed.values.map
        (fun v => truncQ (clamp2 (listMin orig.values) (listMax orig.values) v))
    ∧ (∀ z ∈ (cast_image orig transformed).values,
        dtypeLo (npTargetOf orig.dtype) ≤ z ∧ z ≤ dtypeHi (npTargetOf orig.dtype))
    ∧ ((orig.dtype = "16-bit signed integer" ∨ orig.dtype = "8-bit signed integer" ∨
        orig.dtype = "8-bit unsigned integer" ∨ orig.dtype = "16-bit unsigned integer") →
        (cast_image orig transformed).dtype = orig.dtype)
    ∧ (¬(orig.dtype = "16-bit signed integer" ∨ orig.dtype = "8-bit signed integer" ∨
        orig.dtype = "8-bit unsigned integer" ∨ orig.dtype = "16-bit unsigned integer") →
        (cast_image orig transformed).dtype = "16-bit unsigned integer") := by
  have hmn : (dtypeLo (npTargetOf orig.dtype) : ℚ) ≤ listMin orig.values :=
    (hrange _ (listMin_mem _ hne)).1
  have hmx : listMax orig.values ≤ (dtypeHi (npTargetOf orig.dtype) : ℚ) :=
    (hrange _ (listMax_mem _ hne)).2
  have hmnmx : listMin orig.values ≤ listMax orig.values :=
    le_listMax _ _ (listMin_mem _ hne)
  have key : ∀ v : ℚ,
      wrapInto (npTargetOf orig.dtype)
          (truncQ (clamp2 (listMin orig.values) (listMax orig.values) v)) =
        truncQ (clamp2 (listMin orig.values) (listMax orig.values) v) := by
    intro v
    have hb := clamp2_bounds hmnmx v
    have htr := truncQ_bounds (le_trans hmn hb.1) (le_trans hb.2 hmx)
    exact wrapInto_eq_self htr.1 htr.2
  have hvals : (cast_image orig transformed).values =
      transformed.values.map
        (fun v => truncQ (clamp2 (listMin orig.values) (listMax orig.values) v)) := by
    simp only [cast_image, npAstype, List.map_map]
    have hfun : ((fun q => wrapInto (npTargetOf orig.dtype) (truncQ q)) ∘
        clamp2 (listMin orig.values) (listMax orig.values)) =
        fun v => truncQ (clamp2 (listMin orig.values) (listMax orig.values) v) :=
      funext fun v => key v
    rw [hfun]
  refine ⟨hvals, ?_, ?_, ?_⟩
  · intro z hz
    rw [hvals] at hz
    obtain ⟨v, _, rfl⟩ := List.mem_map.mp hz
    have hb := clamp2_bounds hmnmx v
    exact truncQ_bounds (le_trans hmn hb.1) (le_trans hb.2 hmx)
  · intro hfour
    rcases hfour with h | h | h | h <;> simp [cast_image, npTargetOf, sitkNameOf, h]
  · intro hnot
    push_neg at hnot
    obtain ⟨h1, h2, h3, h4⟩ := hnot
    simp [cast_image, npTargetOf, sitkNameOf, h1, h2, h3, h4]

/-- Witness for claim3 at the spec example: a 16-bit unsigned original
with native range [0, 4095] and a transformed volume containing the
overshoot values -3 and 5000; they clamp to 0 and 4095 and the output
dtype matches the original. -/
theorem claim3_witness :
    (cast_image ⟨"16-bit unsigned integer", [0, 4095]⟩
        ⟨"32-bit float", [-3, 5000, 100]⟩).values = [0, 4095, 100]
    ∧ (cast_image ⟨"16-bit unsigned integer", [0, 4095]⟩
        ⟨"32-bit float", [-3, 5000, 100]⟩).dtype = "16-bit unsigned integer" := by
  have h := claim3_cast_image ⟨"16-bit unsigned integer", [0, 4095]⟩
    ⟨"32-bit float", [-3, 5000, 100]⟩ (by decide) (by decide)
  refine ⟨?_, h.2.2.1 (Or.inr (Or.inr (Or.inr rfl)))⟩
  rw [h.1]
  decide

/-! ## edit_pms_nearest_neighbour (lines 1892-1903) and aliasing

The Python method receives a list of references to sitk ParameterMap
objects and mutates each one in place (pm[key] = ("0",)), then returns
the very same list object.  The embedding makes the object store
explicit: a heap of parameter-map cells, with a binding being a list of
cell indices.  The caller keeps the source binding (for example
self.ccf_ds_pm) and stores the returned binding as the annotation
variant (self.ccf_ds_pm_anno); both are the same index list into the
mutated heap. -/

abbrev Heap := List ParamMap

def nnKey : String := "FinalBSplineInterpolationOrder"

/-- One iteration of the mutation loop (lines 1900-1901) on the heap
cell holding the referenced map. -/
def editStep (h : Heap) (i : Nat) : Heap :=
  match h.get? i with
  | some pm => h.set i (setPm pm nnKey ["0"])
  | none => h

/-- BrainRegister.edit_pms_nearest_neighbour (lines 1892-1903): None
passes through; otherwise every referenced map has its
FinalBSplineInterpolationOrder overwritten with ("0",) in place, and
the same reference list is returned. -/
def edit_pms_nearest_neighbour (h : Heap) (pms : Option (List Nat)) :
    Heap × Option (List Nat) :=
  match pms with
  | none => (h, none)
  | some ids => (ids.foldl editStep h, some ids)

theorem editStep_get_self (h : Heap) (j : Nat) :
    (editStep h j).get? j = (h.get? j).map (fun pm => setPm pm nnKey ["0"]) := by
  unfold editStep
  cases hj : h.get? j with
  | none => exact hj
  | some pm =>
    rw [List.get?_set_eq, hj]
    rfl

theorem editStep_get_ne (h : Heap) (j i : Nat) (hne : i ≠ j) :
    (editStep h j).get? i = h.get? i := by
  unfold editStep
  cases hj : h.get? j with
  | none => rfl
  | some pm => exact List.get?_set_ne _ _ (fun hx => hne hx.symm)

theorem foldl_editStep_get (ids : List Nat) (h : Heap) (i : Nat) :
    (ids.foldl editStep h).get? i =
      if i ∈ ids then (h.get? i).map (fun pm => setPm pm nnKey ["0"]) else h.get? i := by
  induction ids generalizing h with
  | nil => simp
  | cons j rest ih =>
    rw [List.foldl_cons, ih]
    by_cases hij : i = j
    · subst hij
      by_cases hir : i ∈ rest
      · rw [if_pos hir, if_pos (List.mem_cons_self i rest), editStep_get_self]
        cases h.get? i with
        | none => rfl
        | some pm => simp [setPm_idem]
      · rw [if_neg hir, if_pos (List.mem_cons_self i rest), editStep_get_self]
    · rw [editStep_get_ne h j i hij]
      by_cases hir : i ∈ rest
      · rw [if_pos hir, if_pos (List.mem_cons_of_mem j hir)]
      · rw [if_neg hir, if_neg (by simp [hij, hir])]

/-- C2 evaluation at the failing input: a loaded continuous-image
ParameterMapSet whose single map carries FinalBSplineInterpolationOrder
("3",).  Deriving the annotation variant does force every map of the
returned set to order ("0",) and returns the same reference list, but
the source set is NOT left unmodified: after the call the cell the
source binding points to also holds order ("0",), because the method
mutates the shared objects in place rather than copying them. -/
theorem claim2_source_set_mutated :
    (edit_pms_nearest_neighbour [[(nnKey, ["3"])]] (some [0])).1.get? 0 =
        some [(nnKey, ["0"])]
    ∧ (edit_pms_nearest_neighbour [[(nnKey, ["3"])]] (some [0])).2 = some [0]
    ∧ (edit_pms_nearest_neighbour [[(nnKey, ["3"])]] (some [0])).1.get? 0 ≠
        ([[(nnKey, ["3"])]] : Heap).get? 0 := by
  decide

/-! ## load_pm_files (lines 1495-1504)

The filesystem is modelled as a partial map from paths to parameter-map
contents; a path exists when it maps to some content, and
sitk.ReadParameterFile raises (here: an error naming the path) when the
file is missing. -/

abbrev FileSys := String → Option ParamMap

/-- pathlib Path.exists on the modelled filesystem. -/
def fsExists (fs : FileSys) (p : String) : Bool :=
  (fs p).isSome

/-- sitk.ReadParameterFile: the content when the file exists, a raised
read error naming the path otherwise. -/
def readParameterFile (fs : FileSys) (p : String) : Except String ParamMap :=
  match fs p with
  | some pm => .ok pm
  | none => .error p

/-- The loop body of load_pm_files (lines 1498-1500): read every path
in order, propagating the first read failure. -/
def readAllPmFiles (fs : FileSys) : List String → Except String (List ParamMap)
  | [] => .ok []
  | p :: rest =>
    match readParameterFile fs p with
    | .error e => .error e
    | .ok pm =>
      match readAllPmFiles fs rest with
      | .error e => .error e
      | .ok pms => .ok (pm :: pms)

/-- BrainRegister.load_pm_files (lines 1495-1504): presence is decided
by the FIRST path only (pm_paths[0].exists(), an IndexError on an empty
list); when the first file exists every path is read unconditionally,
and when it does not the method returns None. -/
def load_pm_files (fs : FileSys) (pm_paths : List String) :
    Except String (Option (List ParamMap)) :=
  match pm_paths with
  | [] => .error "IndexError"
  | p :: rest =>
    if fsExists fs p then
      match readAllPmFiles fs (p :: rest) with
      | .error e => .error e
      | .ok pms => .ok (some pms)
    else
      .ok none

theorem readAllPmFiles_error (fs : FileSys) (l : List String)
    (q : String) (hq : q ∈ l) (hmiss : fs q = none) :
    ∃ e, readAllPmFiles fs l = .error e := by
  induction l with
  | nil => cases hq
  | cons p rest ih =>
    rcases List.mem_cons.mp hq with rfl | h
    · exact ⟨q, by simp [readAllPmFiles, readParameterFile, hmiss]⟩
    · obtain ⟨e, he⟩ := ih h
      unfold readAllPmFiles readParameterFile
      cases hp : fs p with
      | none => exact ⟨p, rfl⟩
      | some pm =>
        rw [he]
        exact ⟨e, rfl⟩

theorem readAllPmFiles_ok (fs : FileSys) (l : List String)
    (hall : ∀ q ∈ l, (fs q).isSome) :
    ∃ pms, readAllPmFiles fs l = .ok pms := by
  induction l with
  | nil => exact ⟨[], rfl⟩
  | cons p rest ih =>
    obtain ⟨pms, hpms⟩ := ih (fun q hq => hall q (List.mem_cons_of_mem p hq))
    have hp := hall p (List.mem_cons_self p rest)
    cases hfs : fs p with
    | none => rw [hfs] at hp; cases hp
    | some pm =>
      refine ⟨pm :: pms, ?_⟩
      unfold readAllPmFiles readParameterFile
      rw [hfs, hpms]

/-- C10: load_pm_files decides presence by the first path only: it
returns None exactly when the first path does not exist; when the first
file exists it unconditionally reads every path, so a set whose first
file exists but whose later file is missing raises a read failure
(an error result) instead of being treated as an unresolved (None)
set, and when every file exists the whole set is loaded. -/
theorem claim10_load_pm_files (fs : FileSys) (p : String) (rest : List String) :
    (load_pm_files fs (p :: rest) = .ok none ↔ fs p = none)
    ∧ ((fs p).isSome → ∀ q ∈ p :: rest, fs q = none →
        ∃ e, load_pm_files fs (p :: rest) = .error e)
    ∧ ((∀ q ∈ p :: rest, (fs q).isSome) →
        ∃ pms, load_pm_files fs (p :: rest) = .ok (some pms)) := by
  refine ⟨?_, ?_, ?_⟩
  · simp only [load_pm_files, fsExists]
    by_cases hp : (fs p).isSome
    · rw [if_pos hp]
      have hne : fs p ≠ none := Option.isSome_iff_ne_none.mp hp
      cases hall : readAllPmFiles fs (p :: rest) <;> simp [hne]
    · rw [if_neg hp]
      rw [Option.not_isSome_iff_eq_none] at hp
      simp [hp]
  · intro hp q hq hmiss
    obtain ⟨e, he⟩ := readAllPmFiles_error fs (p :: rest) q hq hmiss
    refine ⟨e, ?_⟩
    simp only [load_pm_files, fsExists]
    rw [if_pos hp, he]
  · intro hall
    obtain ⟨pms, hpms⟩ := readAllPmFiles_ok fs (p :: rest) hall
    refine ⟨pms, ?_⟩
    simp only [load_pm_files, fsExists]
    rw [if_pos (hall p (List.mem_cons_self p rest)), hpms]

/-- Concrete filesystem for the claim10 witness: only a.txt exists. -/
def fsOnlyA : FileSys :=
  fun p => if p = "a.txt" then some [("k", ["v"])] else none

/-- Witness for claim10: with paths [a.txt, b.txt] where only a.txt
exists, the set is not treated as unresolved and loading raises a read
failure. -/
theorem claim10_witness :
    (load_pm_files fsOnlyA ["a.txt", "b.txt"] = .ok none ↔ fsOnlyA "a.txt" = none)
    ∧ (∃ e, load_pm_files fsOnlyA ["a.txt", "b.txt"] = .error e) :=
  ⟨(claim10_load_pm_files fsOnlyA "a.txt" ["b.txt"]).1,
   (claim10_load_pm_files fsOnlyA "a.txt" ["b.txt"]).2.1 (by decide)
     "b.txt" (by decide) (by decide)⟩

/-! ## The stage orchestrator (register, lines 240-251) as a state machine

The observable state is the artifact cache (the set of file paths that
exist) plus two counters: regCount counts invocations of the elastix
registration engine (register_image, line 1449, reached only from
register_downsampled_to_ccf and register_ccf_to_downsampled when the
edge parameter files are missing) and scaleCount counts closed-form
scale computations (get_fs_ds_scaling / get_ds_fs_scaling).  Per the
engine contract, one TransformParameters output file is produced per
configured parameter template, and save_pm_files (lines 1481-1490)
renames them in ascending order onto the edge paths, so a completed
registration persists exactly the edge parameter-map paths.  The
transform stages invoke only transformix, never the registration
engine; they write their configured output volumes if missing. -/

structure RegConfig where
  fsdsPath : String
  dsfsPath : String
  dsCcfPaths : List String
  ccfDsPaths : List String
  fsdsOutputs : List String
  dsCcfOutputs : List String
  ccfDsOutputs : List String
  dsfsOutputs : List String

structure RegState where
  files : List String
  regCount : Nat
  scaleCount : Nat
  deriving DecidableEq, Repr

/-- Persist one output artifact if it is not already on disk (the
resolve-or-skip protocol keyed on the output path, as in
process_image_ds, save_template_ds, get_ds_template_ccf and the other
transform helpers). -/
def writeIfMissing (p : String) (st : RegState) : RegState :=
  if p ∈ st.files then st else { st with files := p :: st.files }

/-- Persist a list of output artifacts. -/
def writeEach (ps : List String) (st : RegState) : RegState :=
  ps.foldl (fun s p => writeIfMissing p s) st

/-- One scale edge of generate_scaling_param_files_fs_ds: if the
parameter file exists load it (no computation), otherwise compute the
scaling map and save it. -/
def genScalingStep (p : String) (st : RegState) : RegState :=
  if p ∈ st.files then st
  else { st with files := p :: st.files, scaleCount := st.scaleCount + 1 }

/-- BrainRegister.generate_scaling_param_files_fs_ds (lines 795-820):
the FS to DS edge followed by the DS to FS edge. -/
def generate_scaling_param_files_fs_ds (c : RegConfig) (st : RegState) : RegState :=
  genScalingStep c.dsfsPath (genScalingStep c.fsdsPath st)

/-- BrainRegister.register_transform_fullstack_to_downsampled (lines
661-713): resolve the scale maps, then transform and persist the
requested downsampled outputs. -/
def register_transform_fullstack_to_downsampled (c : RegConfig) (st : RegState) : RegState :=
  writeEach c.fsdsOutputs (generate_scaling_param_files_fs_ds c st)

/-- BrainRegister.register_downsampled_to_ccf (lines 1212-1285): if any
edge parameter file is missing, invoke the registration engine and
persist the resulting parameter-map files; if all exist, skip (the
persisted set was already loaded at initialisation). -/
def register_downsampled_to_ccf (c : RegConfig) (st : RegState) : RegState :=
  if ∀ p ∈ c.dsCcfPaths, p ∈ st.files then st
  else { st with files := c.dsCcfPaths ++ st.files, regCount := st.regCount + 1 }

/-- BrainRegister.register_ccf_to_downsampled (lines 1290-1364), the
mirror-image edge. -/
def register_ccf_to_downsampled (c : RegConfig) (st : RegState) : RegState :=
  if ∀ p ∈ c.ccfDsPaths, p ∈ st.files then st
  else { st with files := c.ccfDsPaths ++ st.files, regCount := st.regCount + 1 }

/-- BrainRegister.transform_downsampled_to_ccf (lines 1581-1615):
transformix only; persists the requested outputs if missing. -/
def transform_downsampled_to_ccf (c : RegConfig) (st : RegState) : RegState :=
  writeEach c.dsCcfOutputs st

/-- BrainRegister.transform_ccf_to_downsampled (lines 1738-1771). -/
def transform_ccf_to_downsampled (c : RegConfig) (st : RegState) : RegState :=
  writeEach c.ccfDsOutputs st

/-- BrainRegister.transform_downsampled_to_fullstack (lines 1908-1946). -/
def transform_downsampled_to_fullstack (c : RegConfig) (st : RegState) : RegState :=
  writeEach c.dsfsOutputs st

/-- BrainRegister.register (lines 240-251): the fixed stage order. -/
def register_run (c : RegConfig) (st : RegState) : RegState :=
  transform_downsampled_to_fullstack c
    (transform_ccf_to_downsampled c
      (register_ccf_to_downsampled c
        (transform_downsampled_to_ccf c
          (register_downsampled_to_ccf c
            (register_transform_fullstack_to_downsampled c st)))))

theorem writeIfMissing_mem {q : String} (p : String) (st : RegState)
    (h : q ∈ st.files) : q ∈ (writeIfMissing p st).files := by
  unfold writeIfMissing
  split
  · exact h
  · exact List.mem_cons_of_mem p h

theorem writeIfMissing_regCount (p : String) (st : RegState) :
    (writeIfMissing p st).regCount = st.regCount := by
  unfold writeIfMissing
  split <;> rfl

theorem writeEach_mem {q : String} (ps : List String) (st : RegState)
    (h : q ∈ st.files) : q ∈ (writeEach ps st).files := by
  induction ps generalizing st with
  | nil => exact h
  | cons p rest ih => exact ih (writeIfMissing p st) (writeIfMissing_mem p st h)

theorem writeEach_regCount (ps : List String) (st : RegState) :
    (writeEach ps st).regCount = st.regCount := by
  unfold writeEach
  induction ps generalizing st with
  | nil => rfl
  | cons p rest ih =>
    rw [List.foldl_cons, ih (writeIfMissing p st), writeIfMissing_regCount]

theorem genScalingStep_mem {q : String} (p : String) (st : RegState)
    (h : q ∈ st.files) : q ∈ (genScalingStep p st).files := by
  unfold genScalingStep
  split
  · exact h
  · exact List.mem_cons_of_mem _ h

theorem genScalingStep_regCount (p : String) (st : RegState) :
    (genScalingStep p st).regCount = st.regCount := by
  unfold genScalingStep
  split <;> rfl

theorem genScalingStep_self_mem (p : String) (st : RegState) :
    p ∈ (genScalingStep p st).files := by
  unfold genScalingStep
  split
  · rename_i h
    exact h
  · exact List.mem_cons_self _ _

theorem genScaling_mem {q : String} (c : RegConfig) (st : RegState)
    (h : q ∈ st.files) : q ∈ (generate_scaling_param_files_fs_ds c st).files :=
  genScalingStep_mem _ _ (genScalingStep_mem _ _ h)

theorem genScaling_regCount (c : RegConfig) (st : RegState) :
    (generate_scaling_param_files_fs_ds c st).regCount = st.regCount := by
  unfold generate_scaling_param_files_fs_ds
  rw [genScalingStep_regCount, genScalingStep_regCount]

theorem genScaling_fsds_mem (c : RegConfig) (st : RegState) :
    c.fsdsPath ∈ (generate_scaling_param_files_fs_ds c st).files :=
  genScalingStep_mem _ _ (genScalingStep_self_mem _ _)

theorem genScaling_dsfs_mem (c : RegConfig) (st : RegState) :
    c.dsfsPath ∈ (generate_scaling_param_files_fs_ds c st).files :=
  genScalingStep_self_mem _ _

theorem regDsCcf_mem {q : String} (c : RegConfig) (st : RegState)
    (h : q ∈ st.files) : q ∈ (register_downsampled_to_ccf c st).files := by
  unfold register_downsampled_to_ccf
  split
  · exact h
  · exact List.mem_append_right _ h

theorem regDsCcf_paths_mem (c : RegConfig) (st : RegState) :
    ∀ p ∈ c.dsCcfPaths, p ∈ (register_downsampled_to_ccf c st).files := by
  intro p hp
  unfold register_downsampled_to_ccf
  split
  · rename_i hall
    exact hall p hp
  · exact List.mem_append_left _ hp

theorem regCcfDs_mem {q : String} (c : RegConfig) (st : RegState)
    (h : q ∈ st.files) : q ∈ (register_ccf_to_downsampled c st).files := by
  unfold register_ccf_to_downsampled
  split
  · exact h
  · exact List.mem_append_right _ h

theorem regCcfDs_paths_mem (c : RegConfig) (st : RegState) :
    ∀ p ∈ c.ccfDsPaths, p ∈ (register_ccf_to_downsampled c st).files := by
  intro p hp
  unfold register_ccf_to_downsampled
  split
  · rename_i hall
    exact hall p hp
  · exact List.mem_append_left _ hp

/-- After one full run every edge parameter-map file exists on disk. -/
theorem register_run_pm_files_exist (c : RegConfig) (st : RegState) :
    c.fsdsPath ∈ (register_run c st).files
    ∧ c.dsfsPath ∈ (register_run c st).files
    ∧ (∀ p ∈ c.dsCcfPaths, p ∈ (register_run c st).files)
    ∧ (∀ p ∈ c.ccfDsPaths, p ∈ (register_run c st).files) := by
  unfold register_run register_transform_fullstack_to_downsampled
    transform_downsampled_to_ccf transform_ccf_to_downsampled
    transform_downsampled_to_fullstack
  refine ⟨?_, ?_, ?_, ?_⟩
  · exact writeEach_mem _ _ (writeEach_mem _ _ (regCcfDs_mem _ _ (writeEach_mem _ _
      (regDsCcf_mem _ _ (writeEach_mem _ _ (genScaling_fsds_mem c st))))))
  · exact writeEach_mem _ _ (writeEach_mem _ _ (regCcfDs_mem _ _ (writeEach_mem _ _
      (regDsCcf_mem _ _ (writeEach_mem _ _ (genScaling_dsfs_mem c st))))))
  · intro p hp
    exact writeEach_mem _ _ (writeEach_mem _ _ (regCcfDs_mem _ _ (writeEach_mem _ _
      (regDsCcf_paths_mem _ _ p hp))))
  · intro p hp
    exact writeEach_mem _ _ (writeEach_mem _ _ (regCcfDs_paths_mem _ _ p hp))

theorem genScalingStep_skip (p : String) (st : RegState) (h : p ∈ st.files) :
    genScalingStep p st = st := by
  unfold genScalingStep
  exact if_pos h

/-- Once every edge parameter-map file is on disk, one full run invokes
the registration engine zero times. -/
theorem run_skip_regCount (c : RegConfig) (st1 : RegState)
    (h1 : c.fsdsPath ∈ st1.files) (h2 : c.dsfsPath ∈ st1.files)
    (h3 : ∀ p ∈ c.dsCcfPaths, p ∈ st1.files)
    (h4 : ∀ p ∈ c.ccfDsPaths, p ∈ st1.files) :
    (register_run c st1).regCount = st1.regCount := by
  have hg : generate_scaling_param_files_fs_ds c st1 = st1 := by
    unfold generate_scaling_param_files_fs_ds
    rw [genScalingStep_skip c.fsdsPath st1 h1, genScalingStep_skip c.dsfsPath st1 h2]
  have hr1 : register_downsampled_to_ccf c (writeEach c.fsdsOutputs st1) =
      writeEach c.fsdsOutputs st1 := by
    unfold register_downsampled_to_ccf
    exact if_pos (fun p hp => writeEach_mem _ _ (h3 p hp))
  have hr2 : register_ccf_to_downsampled c
      (writeEach c.dsCcfOutputs (writeEach c.fsdsOutputs st1)) =
      writeEach c.dsCcfOutputs (writeEach c.fsdsOutputs st1) := by
    unfold register_ccf_to_downsampled
    exact if_pos (fun p hp => writeEach_mem _ _ (writeEach_mem _ _ (h4 p hp)))
  unfold register_run register_transform_fullstack_to_downsampled
    transform_downsampled_to_ccf transform_ccf_to_downsampled
    transform_downsampled_to_fullstack
  rw [hg, hr1, hr2, writeEach_regCount, writeEach_regCount, writeEach_regCount,
    writeEach_regCount]

/-- C1: for every directed edge, when all of the edge persisted
parameter-map files already exist the registration or scale computation
for that edge is skipped entirely (the state, counters included, is
unchanged: the persisted set is only loaded); consequently a second
full run over the state left by a first run performs zero
registration-engine invocations. -/
theorem claim1_resolve_or_skip :
    (∀ (c : RegConfig) (st : RegState),
        c.fsdsPath ∈ st.files → c.dsfsPath ∈ st.files →
        generate_scaling_param_files_fs_ds c st = st)
    ∧ (∀ (c : RegConfig) (st : RegState),
        (∀ p ∈ c.dsCcfPaths, p ∈ st.files) → register_downsampled_to_ccf c st = st)
    ∧ (∀ (c : RegConfig) (st : RegState),
        (∀ p ∈ c.ccfDsPaths, p ∈ st.files) → register_ccf_to_downsampled c st = st)
    ∧ (∀ (c : RegConfig) (st : RegState),
        (register_run c (register_run c st)).regCount = (register_run c st).regCount) := by
  refine ⟨?_, ?_, ?_, ?_⟩
  · intro c st h1 h2
    unfold generate_scaling_param_files_fs_ds
    rw [genScalingStep_skip _ _ h1, genScalingStep_skip _ _ h2]
  · intro c st h
    unfold register_downsampled_to_ccf
    exact if_pos h
  · intro c st h
    unfold register_ccf_to_downsampled
    exact if_pos h
  · intro c st
    obtain ⟨h1, h2, h3, h4⟩ := register_run_pm_files_exist c st
    exact run_skip_regCount c (register_run c st) h1 h2 h3 h4

/-- Concrete edge configuration for the claim1 witness. -/
def cW : RegConfig :=
  { fsdsPath := "fs2ds.txt", dsfsPath := "ds2fs.txt",
    dsCcfPaths := ["ds2ccf.0.txt", "ds2ccf.1.txt"], ccfDsPaths := ["ccf2ds.0.txt"],
    fsdsOutputs := ["ds_template.nrrd"], dsCcfOutputs := ["ccf_template.nrrd"],
    ccfDsOutputs := ["ds_ccf_template.nrrd"], dsfsOutputs := ["fs_ccf_template.nrrd"] }

/-- Artifact cache holding every parameter-map file of cW. -/
def stFull : RegState :=
  { files := ["fs2ds.txt", "ds2fs.txt", "ds2ccf.0.txt", "ds2ccf.1.txt", "ccf2ds.0.txt"],
    regCount := 0, scaleCount := 0 }

/-- Empty artifact cache (a fresh first run). -/
def stEmpty : RegState := { files := [], regCount := 0, scaleCount := 0 }

/-- Witness for claim1 at a concrete configuration and cache. -/
theorem claim1_witness :
    generate_scaling_param_files_fs_ds cW stFull = stFull
    ∧ register_downsampled_to_ccf cW stFull = stFull
    ∧ register_ccf_to_downsampled cW stFull = stFull
    ∧ (register_run cW (register_run cW stEmpty)).regCount =
        (register_run cW stEmpty).regCount :=
  ⟨claim1_resolve_or_skip.1 cW stFull (by decide) (by decide),
   claim1_resolve_or_skip.2.1 cW stFull (by decide),
   claim1_resolve_or_skip.2.2.1 cW stFull (by decide),
   claim1_resolve_or_skip.2.2.2 cW stEmpty⟩

/-! ## Initialisation (load_params lines 292-324, resolve_param_paths
lines 439-497)

The brainregister parameters relevant to the fatal checks performed at
initialisation, before create_output_dirs and before register() can be
called; sys.exit is embedded as an error result. -/

structure BrpConfig where
  resXum : ℚ
  resYum : ℚ
  resZum : ℚ
  dsCcfTransformParamsFilenames : List String
  dsCcfParametersFiles : List String
  ccfDsTransformParamsFilenames : List String
  ccfDsParametersFiles : List String

/-- BrainRegister.load_params (lines 292-324): after reading the yaml,
abort when any axis of the sample-template resolution is still the 0.0
default. -/
def load_params (b : BrpConfig) : Except String Unit :=
  if b.resXum = 0 ∨ b.resYum = 0 ∨ b.resZum = 0 then
    .error "ERROR :  image resolution not set in brainregister_params"
  else
    .ok ()

/-- The length checks of BrainRegister.resolve_param_paths (lines
474-483): for each registration edge the declared
transform-params-filenames and parameters-files lists must have equal
length. -/
def resolve_param_paths_check (b : BrpConfig) : Except String Unit :=
  if b.dsCcfTransformParamsFilenames.length ≠ b.dsCcfParametersFiles.length then
    .error "  ERROR - downsampled-to-ccf : transform-params-filenames and parameters-files are not equal in length"
  else if b.ccfDsTransformParamsFilenames.length ≠ b.ccfDsParametersFiles.length then
    .error "  ERROR - ccf-to-downsampled : transform-params-filenames and parameters-files are not equal in length"
  else
    .ok ()

/-- BrainRegister.initialise_brainregister (lines 254-287): load the
parameters, then resolve paths including the fatal length checks. -/
def initialise_brainregister (b : BrpConfig) : Except String Unit :=
  match load_params b with
  | .error e => .error e
  | .ok _ => resolve_param_paths_check b

/-- Constructing a BrainRegister and running the pipeline (lines
223-251): initialisation runs first and its sys.exit aborts before any
stage; only on success does register() execute the stage sequence. -/
def brainregister_register (b : BrpConfig) (c : RegConfig) (st : RegState) :
    Except String RegState :=
  match initialise_brainregister b with
  | .error e => .error e
  | .ok _ => .ok (register_run c st)

/-- C8: if for either registration edge the declared
transform-params-filenames and parameters-files differ in length,
initialisation aborts with a fatal error before any pipeline stage
runs, and no registration or transform is performed (the run produces
an error, never a state). -/
theorem claim8_mismatched_lengths (b : BrpConfig) (c : RegConfig) (st : RegState)
    (hmis : b.dsCcfTransformParamsFilenames.length ≠ b.dsCcfParametersFiles.length
      ∨ b.ccfDsTransformParamsFilenames.length ≠ b.ccfDsParametersFiles.length) :
    ∃ e, initialise_brainregister b = .error e
      ∧ brainregister_register b c st = .error e := by
  unfold brainregister_register initialise_brainregister load_params
  by_cases hres : b.resXum = 0 ∨ b.resYum = 0 ∨ b.resZum = 0
  · rw [if_pos hres]
    exact ⟨_, rfl, rfl⟩
  · rw [if_neg hres]
    unfold resolve_param_paths_check
    by_cases h1 : b.dsCcfTransformParamsFilenames.length = b.dsCcfParametersFiles.length
    · have h2 : b.ccfDsTransformParamsFilenames.length ≠ b.ccfDsParametersFiles.length := by
        rcases hmis with h | h
        · exact absurd h1 h
        · exact h
      rw [if_neg (by simpa using h1), if_pos h2]
      exact ⟨_, rfl, rfl⟩
    · rw [if_pos h1]
      exact ⟨_, rfl, rfl⟩

/-- Concrete configuration with a downsampled-to-ccf length mismatch. -/
def bMismatch : BrpConfig :=
  { resXum := 1, resYum := 1, resZum := 1,
    dsCcfTransformParamsFilenames := ["TransformParameters.0.txt", "TransformParameters.1.txt"],
    dsCcfParametersFiles := ["brainregister_affine"],
    ccfDsTransformParamsFilenames := ["TransformParameters.0.txt"],
    ccfDsParametersFiles := ["brainregister_affine"] }

/-- Witness for claim8 at a concrete mismatched configuration. -/
theorem claim8_witness :
    ∃ e, initialise_brainregister bMismatch = .error e
      ∧ brainregister_register bMismatch cW stEmpty = .error e :=
  claim8_mismatched_lengths bMismatch cW stEmpty (Or.inl (by decide))

/-- C9: constructing a BrainRegister aborts during parameter loading
when any axis of the configured sample-template resolution equals 0.0,
and conversely any run that reaches the stage sequence (produces a
state) has strictly non-zero resolutions on all three axes, the
precondition the scale-factor division depends on. -/
theorem claim9_zero_resolution (b : BrpConfig) :
    ((b.resXum = 0 ∨ b.resYum = 0 ∨ b.resZum = 0) →
      ∃ e, load_params b = .error e ∧ initialise_brainregister b = .error e)
    ∧ (∀ (c : RegConfig) (st st' : RegState),
        brainregister_register b c st = .ok st' →
        b.resXum ≠ 0 ∧ b.resYum ≠ 0 ∧ b.resZum ≠ 0) := by
  constructor
  · intro hzero
    unfold initialise_brainregister load_params
    rw [if_pos hzero]
    exact ⟨_, rfl, rfl⟩
  · intro c st st' hok
    by_contra hcon
    push_neg at hcon
    have hzero : b.resXum = 0 ∨ b.resYum = 0 ∨ b.resZum = 0 := by
      by_cases hx : b.resXum = 0
      · exact Or.inl hx
      · by_cases hy : b.resYum = 0
        · exact Or.inr (Or.inl hy)
        · exact Or.inr (Or.inr (hcon hx hy))
    unfold brainregister_register initialise_brainregister load_params at hok
    rw [if_pos hzero] at hok
    cases hok

/-- Concrete configuration with a zero y-axis resolution. -/
def bZeroRes : BrpConfig :=
  { resXum := 1, resYum := 0, resZum := 25,
    dsCcfTransformParamsFilenames := ["TransformParameters.0.txt"],
    dsCcfParametersFiles := ["brainregister_affine"],
    ccfDsTransformParamsFilenames := ["TransformParameters.0.txt"],
    ccfDsParametersFiles := ["brainregister_affine"] }

/-- Witness for claim9 at a concrete zero-resolution configuration. -/
theorem claim9_witness :
    ∃ e, load_params bZeroRes = .error e
      ∧ initialise_brainregister bZeroRes = .error e :=
  (claim9_zero_resolution bZeroRes).1 (Or.inr (Or.inl rfl))
